import Mathlib

/-!
Verification of `model_downloader.py` (VFX Bidding AI model downloader).

The source is a single-file resumable HTTP downloader:
HEAD requests resolve the remote size and probe byte-range support, one GET
streams the body in 64 KiB chunks into `<filename>.download`, and a final
rename promotes the temporary file to `<filename>`.

Shallow embedding used here:
* the network and the clock are oracles bundled in a `World`
  (the code issues two separate HEAD requests, so the model carries two
  independent HEAD oracles; the GET oracle may depend on the Range offset);
* the filesystem is the pair of the only two paths the downloader touches,
  `final_path` and `temp_path`, each an optional byte string;
* exceptions become an error type whose constructors track the distinct
  `raise` sites of the source;
* callback invocations, HTTP requests, and the successive values of the
  `downloaded` counter are logged in the result so that observable behaviour
  can be stated and checked.
Machine floats of the source (`time.time()`, division) are modelled as exact
rationals.
-/

/-- Byte strings: file contents and response chunks.  Only lengths and
identity of bytes matter to the control flow. -/
abbrev Bytes := List Nat

/-- The `ModelInfo` dataclass of the source. -/
structure ModelInfo where
  repo_id : String
  filename : String
  display_name : String
  size_gb : ℚ
  quantization : String
deriving DecidableEq

/-- `ModelInfo.get_download_url`: URL by string composition. -/
def ModelInfo.get_download_url (m : ModelInfo) : String :=
  "https://huggingface.co/" ++ m.repo_id ++ "/resolve/main/" ++ m.filename

/-- The class-level `RECOMMENDED_MODELS` catalog, as an association list
(insertion order preserved, as in a Python dict). -/
def RECOMMENDED_MODELS : List (String × ModelInfo) :=
  [("floppa-12b-q4",
    { repo_id := "mradermacher/Floppa-12B-Gemma3-Uncensored-GGUF"
      filename := "Floppa-12B-Gemma3-Uncensored.Q4_K_S.gguf"
      display_name := "Floppa-12B (Q4_K_S)"
      size_gb := 646 / 100
      quantization := "Q4_K_S" }),
   ("floppa-12b-q5",
    { repo_id := "mradermacher/Floppa-12B-Gemma3-Uncensored-GGUF"
      filename := "Floppa-12B-Gemma3-Uncensored.Q5_K_M.gguf"
      display_name := "Floppa-12B (Q5_K_M)"
      size_gb := 793 / 100
      quantization := "Q5_K_M" }),
   ("floppa-12b-q6",
    { repo_id := "mradermacher/Floppa-12B-Gemma3-Uncensored-GGUF"
      filename := "Floppa-12B-Gemma3-Uncensored.Q6_K.gguf"
      display_name := "Floppa-12B (Q6_K)"
      size_gb := 941 / 100
      quantization := "Q6_K" })]

/-- A HEAD response: the `content-length` header (`none` = header absent,
`some none` = present but `int(...)` raises, `some (some n)` = parses to `n`)
and the `accept-ranges` header. -/
structure HeadResp where
  contentLength : Option (Option Int)
  acceptRanges : Option String
deriving DecidableEq

/-- A GET response: whether `raise_for_status()` passes, and the chunk
sequence `iter_content(chunk_size=64*1024)` yields. -/
structure GetResp where
  statusOk : Bool
  chunks : List Bytes
deriving DecidableEq

/-- The ambient world: network oracles and the clock.  `headMeta` answers the
HEAD issued by `get_remote_size`, `headProbe` the one issued by
`check_resume_support` (two distinct requests in the source, so they may
answer differently); `get` answers the GET given the Range offset (`none` on
both = the request raised).  `startTime` is the `time.time()` taken at the
start of the transfer, `chunkTime i` the one taken while handling the i-th
non-empty chunk. -/
structure World where
  headMeta : String → Option HeadResp
  headProbe : String → Option HeadResp
  get : String → Option Nat → Option GetResp
  startTime : ℚ
  chunkTime : Nat → ℚ

/-- The two on-disk paths the downloader touches: contents of `final_path`
and of `temp_path` (`none` = the file does not exist). -/
structure FS where
  final : Option Bytes
  temp : Option Bytes
deriving DecidableEq

/-- `path.stat().st_size if path.exists() else 0`. -/
def fileSize : Option Bytes → Nat
  | none => 0
  | some c => c.length

/-- The distinct messages the source passes to the progress callback; a
`Msg` carries exactly the data the formatted string interpolates. -/
inductive Msg where
  | startingDownload
  | alreadyDownloaded
  | existingIncomplete
  | resumingFrom (offset : Nat)
  | progress (downloaded : Nat) (total : Int) (speed : ℚ)
  | downloadComplete
deriving DecidableEq

/-- One HTTP request as logged: a HEAD, or a GET with its optional Range
offset (`Range: bytes=k-`). -/
inductive NetReq where
  | head (url : String)
  | get (url : String) (range : Option Nat)
deriving DecidableEq

/-- The distinct `raise` sites of the source.  `couldNotGetRemoteSize` is the
wrap in `get_remote_size`, `couldNotDetermineRemoteSize` the zero-size
rejection in `download`, `downloadFailed` the `RequestException` wrap, and
`incomplete` the byte-count-mismatch raise (re-wrapped by the generic
`except Exception` clause). -/
inductive DlErr where
  | couldNotGetRemoteSize
  | couldNotDetermineRemoteSize
  | downloadFailed
  | incomplete (downloaded : Nat) (remote : Int)
deriving DecidableEq

instance {ε α : Type} [DecidableEq ε] [DecidableEq α] : DecidableEq (Except ε α)
  | .error a, .error b => decidable_of_iff (a = b) (by simp)
  | .error _, .ok _ => isFalse (by simp)
  | .ok _, .error _ => isFalse (by simp)
  | .ok a, .ok b => decidable_of_iff (a = b) (by simp)

/-- Result of one `download` invocation: outcome, final filesystem state,
the requests issued, the `(percent, message)` callback invocations in order,
and (as a ghost log) the successive values taken by the local `downloaded`
counter. -/
structure DlOut where
  res : Except DlErr Unit
  fs : FS
  requests : List NetReq
  calls : List (ℚ × Msg)
  trace : List Nat
deriving DecidableEq

/-- `percent = (downloaded / total * 100) if total > 0 else 0`
(line 112 of the source). -/
def report_percent (downloaded : Nat) (total : Int) : ℚ :=
  if 0 < total then (downloaded : ℚ) / (total : ℚ) * 100 else 0

/-- `_report_progress`: computes the percent and invokes the callback with it
and the formatted message (whose interpolated numbers `Msg.progress`
records). -/
def report_progress (downloaded : Nat) (total : Int) (speed : ℚ) : ℚ × Msg :=
  (report_percent downloaded total, Msg.progress downloaded total speed)

/-- `get_remote_size`: HEAD, then `int(response.headers.get('content-length', 0))`.
An absent header defaults to `0`; a raising request or an unparseable header
is wrapped into the `Could not get remote file size` exception. -/
def get_remote_size (w : World) (url : String) : Except DlErr Int :=
  match w.headMeta url with
  | none => .error .couldNotGetRemoteSize
  | some h =>
    match h.contentLength with
    | none => .ok 0
    | some none => .error .couldNotGetRemoteSize
    | some (some n) => .ok n

/-- `check_resume_support`: HEAD, then
`response.headers.get('accept-ranges') == 'bytes'`; any exception yields
`False`. -/
def check_resume_support (w : World) (url : String) : Bool :=
  match w.headProbe url with
  | none => false
  | some h => decide (h.acceptRanges = some ("bytes"))

/-- `verify_download`: final file exists and, when an expected size is
given, matches it exactly; otherwise is merely non-empty. -/
def verify_download (fs : FS) (expected : Option Int) : Bool :=
  match fs.final with
  | none => false
  | some c =>
    match expected with
    | some e => decide ((c.length : Int) = e)
    | none => decide (0 < c.length)

/-- Lines 197-203 of `download`: the resume decision.  Returns the new
`downloaded` offset, the surviving temporary file, the HEAD requests issued
by the probe (Python `and` short-circuits: no probe when `resume` is false),
and the callback invocations emitted. -/
def resumeDecision (w : World) (url : String) (resume : Bool) (d0 : Nat)
    (temp : Option Bytes) : Nat × Option Bytes × List NetReq × List (ℚ × Msg) :=
  if 0 < d0 then
    if resume then
      if check_resume_support w url then
        (d0, temp, [NetReq.head url], [((0 : ℚ), Msg.resumingFrom d0)])
      else
        (0, none, [NetReq.head url], [])
    else
      (0, none, [], [])
  else
    (d0, temp, [], [])

/-- The chunk loop (lines 221-232): writes each non-empty chunk, increments
`downloaded`, and emits a throttled progress report when at least one second
has passed since the last emission.  `elapsed` is measured from the session
start and `lastBytes` is the (never updated) `_last_downloaded_bytes`.
Returns the final `downloaded`, the bytes written, the emitted calls, and the
ghost trace of counter values. -/
def streamLoop (remote : Int) (startTime : ℚ) (chunkTime : Nat → ℚ) :
    List Bytes → Nat → Nat → Nat → ℚ → Nat × Bytes × List (ℚ × Msg) × List Nat
  | [], _, downloaded, _, _ => (downloaded, [], [], [])
  | chunk :: rest, idx, downloaded, lastBytes, lastT =>
    if chunk.isEmpty then
      streamLoop remote startTime chunkTime rest idx downloaded lastBytes lastT
    else
      let d : Nat := downloaded + chunk.length
      let t : ℚ := chunkTime idx
      if 1 ≤ t - lastT then
        let elapsed : ℚ := t - startTime
        let speed : ℚ := if 0 < elapsed then ((d : ℚ) - (lastBytes : ℚ)) / elapsed else 0
        let r := streamLoop remote startTime chunkTime rest (idx + 1) d lastBytes t
        (r.1, chunk ++ r.2.1, report_progress d remote speed :: r.2.2.1, d :: r.2.2.2)
      else
        let r := streamLoop remote startTime chunkTime rest (idx + 1) d lastBytes lastT
        (r.1, chunk ++ r.2.1, r.2.2.1, d :: r.2.2.2)

/-- `ModelDownloader.download`, straight-line translation of lines 165-251.
The order of branches, callback invocations, requests, and file mutations
follows the source; the `trace` field records every value the local
`downloaded` variable takes. -/
def download (mi : ModelInfo) (w : World) (fs : FS) (resume : Bool) : DlOut :=
  let url := mi.get_download_url
  match get_remote_size w url with
  | .error e => ⟨.error e, fs, [NetReq.head url], [], []⟩
  | .ok remote =>
    if remote = 0 then
      ⟨.error .couldNotDetermineRemoteSize, fs, [NetReq.head url], [], []⟩
    else if verify_download fs (some remote) then
      ⟨.ok (), fs, [NetReq.head url],
        [((0 : ℚ), Msg.startingDownload), ((100 : ℚ), Msg.alreadyDownloaded)], []⟩
    else
      let calls1 : List (ℚ × Msg) :=
        ((0 : ℚ), Msg.startingDownload) ::
          (if fs.final.isSome then [((0 : ℚ), Msg.existingIncomplete)] else [])
      let d0 := fileSize fs.temp
      let dec := resumeDecision w url resume d0 fs.temp
      let d1 := dec.1
      let temp1 := dec.2.1
      let calls2 := calls1 ++ dec.2.2.2
      let range : Option Nat := if 0 < d1 then some d1 else none
      let reqs : List NetReq := [NetReq.head url] ++ dec.2.2.1 ++ [NetReq.get url range]
      let trace0 : List Nat := if d0 = d1 then [d0] else [d0, d1]
      match w.get url range with
      | none => ⟨.error .downloadFailed, ⟨fs.final, temp1⟩, reqs, calls2, trace0⟩
      | some resp =>
        if resp.statusOk = false then
          ⟨.error .downloadFailed, ⟨fs.final, temp1⟩, reqs, calls2, trace0⟩
        else
          let base : Bytes := if 0 < d1 then temp1.getD [] else []
          let r := streamLoop remote w.startTime w.chunkTime resp.chunks 0 d1 d1 0
          let content := base ++ r.2.1
          let calls3 := calls2 ++ r.2.2.1 ++ [report_progress r.1 remote 0]
          if (r.1 : Int) = remote then
            ⟨.ok (), ⟨some content, none⟩, reqs,
              calls3 ++ [((100 : ℚ), Msg.downloadComplete)], trace0 ++ r.2.2.2⟩
          else
            ⟨.error (.incomplete r.1 remote), ⟨fs.final, some content⟩, reqs, calls3,
              trace0 ++ r.2.2.2⟩

/-- The `f.read(8192)` loop of `calculate_checksum`: the file contents cut
into successive chunks of at most 8192 bytes. -/
def chunks8192 (l : Bytes) : List Bytes :=
  if h : l = [] then []
  else l.take 8192 :: chunks8192 (l.drop 8192)
termination_by l.length
decreasing_by
  simp only [List.length_drop]
  have hp : 0 < l.length := List.length_pos.mpr h
  omega

/-- A hash algorithm as `hashlib` exposes one: an internal state, `update`,
and `hexdigest`.  The source defaults to `md5` (a 128-bit digest); the
operation is parametric in the algorithm exactly as `hashlib.new` is. -/
structure HashAlg where
  State : Type
  init : State
  update : State → Bytes → State
  hexdigest : State → String

/-- `calculate_checksum`: fails if the final file does not exist, otherwise
streams it through the algorithm in 8 KiB reads and returns the hex digest. -/
def calculate_checksum (alg : HashAlg) (fs : FS) : Except String String :=
  match fs.final with
  | none => .error ("File not downloaded")
  | some content => .ok (alg.hexdigest ((chunks8192 content).foldl alg.update alg.init))

/-- A tiny heap of dict references, to state the copy semantics of
`list_available_models`: `store` maps references to dict values, `classRef`
is the reference holding the class-level `RECOMMENDED_MODELS`, and `nextRef`
is the next fresh reference. -/
structure DictHeap where
  store : Nat → List (String × ModelInfo)
  classRef : Nat
  nextRef : Nat

/-- `list_available_models`: returns `RECOMMENDED_MODELS.copy()` — a fresh
reference holding the same entries as the class-level dict. -/
def list_available_models (h : DictHeap) : Nat × DictHeap :=
  (h.nextRef,
   { store := fun i => if i = h.nextRef then h.store h.classRef else h.store i
     classRef := h.classRef
     nextRef := h.nextRef + 1 })

/-- A dictionary-level mutation of the dict held at reference `r`
(insertion, deletion, replacement: any new value). -/
def writeDict (h : DictHeap) (r : Nat) (d : List (String × ModelInfo)) : DictHeap :=
  { h with store := fun i => if i = r then d else h.store i }

/-- `get_model_info`: looks the key up in the class-level dict, raising
`ValueError` (modelled as `.error`) when absent. -/
def get_model_info (h : DictHeap) (key : String) : Except String ModelInfo :=
  match (h.store h.classRef).find? (fun p => p.1 == key) with
  | none => .error ("Unknown model: " ++ key)
  | some p => .ok p.2

theorem streamLoop_downloaded (remote : Int) (st : ℚ) (ct : Nat → ℚ)
    (chunks : List Bytes) :
    ∀ (idx downloaded lastBytes : Nat) (lastT : ℚ),
      (streamLoop remote st ct chunks idx downloaded lastBytes lastT).1 =
        downloaded + chunks.flatten.length := by
  induction chunks with
  | nil => intro idx d lb lt; simp [streamLoop]
  | cons chunk rest ih =>
    intro idx d lb lt
    by_cases hemp : chunk.isEmpty
    · have hnil : chunk = [] := List.isEmpty_iff.mp hemp
      simp [streamLoop, hemp, hnil, ih]
    · simp only [streamLoop, hemp, Bool.false_eq_true, if_false]
      split <;> simp [ih] <;> omega

theorem streamLoop_written (remote : Int) (st : ℚ) (ct : Nat → ℚ)
    (chunks : List Bytes) :
    ∀ (idx downloaded lastBytes : Nat) (lastT : ℚ),
      (streamLoop remote st ct chunks idx downloaded lastBytes lastT).2.1 =
        chunks.flatten := by
  induction chunks with
  | nil => intro idx d lb lt; simp [streamLoop]
  | cons chunk rest ih =>
    intro idx d lb lt
    by_cases hemp : chunk.isEmpty
    · have hnil : chunk = [] := List.isEmpty_iff.mp hemp
      simp [streamLoop, hemp, hnil, ih]
    · simp only [streamLoop, hemp, Bool.false_eq_true, if_false]
      split <;> simp [ih]

theorem streamLoop_trace_chain (remote : Int) (st : ℚ) (ct : Nat → ℚ)
    (chunks : List Bytes) :
    ∀ (idx downloaded lastBytes : Nat) (lastT : ℚ),
      List.Chain' (· ≤ ·)
        (downloaded :: (streamLoop remote st ct chunks idx downloaded lastBytes lastT).2.2.2) := by
  induction chunks with
  | nil => intro idx d lb lt; simp [streamLoop]
  | cons chunk rest ih =>
    intro idx d lb lt
    by_cases hemp : chunk.isEmpty
    · simp only [streamLoop, hemp, if_true]
      exact ih idx d lb lt
    · simp only [streamLoop, hemp, Bool.false_eq_true, if_false]
      split
      · exact List.Chain'.cons (by omega) (ih (idx + 1) (d + chunk.length) lb (ct idx))
      · exact List.Chain'.cons (by omega) (ih (idx + 1) (d + chunk.length) lb lt)

theorem resumeDecision_pos (w : World) (url : String) (resume : Bool) (d0 : Nat)
    (temp : Option Bytes) (h : 0 < (resumeDecision w url resume d0 temp).1) :
    resume = true ∧ check_resume_support w url = true ∧
      (resumeDecision w url resume d0 temp).1 = d0 ∧ 0 < d0 ∧
      (resumeDecision w url resume d0 temp).2.1 = temp := by
  unfold resumeDecision at h ⊢
  split_ifs at h ⊢ <;> simp_all

theorem resumeDecision_preqs (w : World) (url : String) (resume : Bool) (d0 : Nat)
    (temp : Option Bytes) :
    (resumeDecision w url resume d0 temp).2.2.1 = [] ∨
      (resumeDecision w url resume d0 temp).2.2.1 = [NetReq.head url] := by
  unfold resumeDecision
  split_ifs <;> simp

theorem download_requests (mi : ModelInfo) (w : World) (fs : FS) (resume : Bool) :
    (download mi w fs resume).requests = [NetReq.head mi.get_download_url] ∨
    (download mi w fs resume).requests =
      [NetReq.head mi.get_download_url] ++
        (resumeDecision w mi.get_download_url resume (fileSize fs.temp) fs.temp).2.2.1 ++
        [NetReq.get mi.get_download_url
          (if 0 < (resumeDecision w mi.get_download_url resume (fileSize fs.temp) fs.temp).1
           then some (resumeDecision w mi.get_download_url resume (fileSize fs.temp) fs.temp).1
           else none)] := by
  simp only [download]
  rcases hge : get_remote_size w mi.get_download_url with e | remote
  · simp
  · by_cases h0 : remote = 0
    · simp [h0]
    · cases hv : verify_download fs (some remote)
      · right
        simp only [h0, hv, if_false, Bool.false_eq_true]
        split
        · simp
        · split
          · simp
          · split <;> simp
      · simp [h0, hv]

/-- C1 (amended): when the final file already exists with exactly the
resolved remote size, `download` returns it immediately: no GET request is
issued (the size-resolution HEAD is the only request), the filesystem is
untouched, and the progress callback is invoked exactly twice — once with
percent 0 (the `Starting download` message emitted before the existence
check) and once with percent 100 (`Model already downloaded`). -/
theorem C1_short_circuit (mi : ModelInfo) (w : World) (fs : FS) (resume : Bool)
    (remote : Int)
    (hmeta : get_remote_size w mi.get_download_url = .ok remote)
    (hnz : remote ≠ 0)
    (hv : verify_download fs (some remote) = true) :
    download mi w fs resume =
      ⟨.ok (), fs, [NetReq.head mi.get_download_url],
        [((0 : ℚ), Msg.startingDownload), ((100 : ℚ), Msg.alreadyDownloaded)], []⟩ := by
  simp only [download]
  rw [hmeta]
  simp [hnz, hv]

def mi0 : ModelInfo :=
  { repo_id := "r", filename := "f", display_name := "d", size_gb := 0, quantization := "q" }

def wC1 : World :=
  { headMeta := fun _ => some ⟨some (some 100), some ("bytes")⟩
    headProbe := fun _ => some ⟨some (some 100), some ("bytes")⟩
    get := fun _ _ => none
    startTime := 0
    chunkTime := fun _ => 0 }

def fsC1 : FS := ⟨some (List.replicate 100 0), none⟩

/-- C1 witness: concrete run of the short-circuit. -/
theorem C1_short_circuit_witness :
    download mi0 wC1 fsC1 true =
      ⟨.ok (), fsC1, [NetReq.head mi0.get_download_url],
        [((0 : ℚ), Msg.startingDownload), ((100 : ℚ), Msg.alreadyDownloaded)], []⟩ :=
  C1_short_circuit mi0 wC1 fsC1 true 100 rfl (by decide) (by decide)

/-- C1 counterexample: on the spec's own example (final file of the resolved
remote size already on disk) the callback is invoked twice — percent 0 then
percent 100 — not exactly once as the claim states. -/
theorem C1_counterexample :
    (download mi0 wC1 fsC1 true).res = .ok () ∧
    (download mi0 wC1 fsC1 true).requests = [NetReq.head mi0.get_download_url] ∧
    (download mi0 wC1 fsC1 true).calls =
      [((0 : ℚ), Msg.startingDownload), ((100 : ℚ), Msg.alreadyDownloaded)] ∧
    (download mi0 wC1 fsC1 true).calls.length ≠ 1 :=
  ⟨rfl, rfl, rfl, by decide⟩

/-- C3 (amended): the size-resolution fails when the HEAD request raises or
the length header is present but unparseable; an absent header is not an
error at that level — it defaults to size 0 — and `download` rejects a
resolved size of 0 before any file I/O and before any callback invocation. -/
theorem C3_remote_size (w : World) (url : String) :
    (w.headMeta url = none → get_remote_size w url = .error .couldNotGetRemoteSize) ∧
    (∀ h, w.headMeta url = some h → h.contentLength = some none →
      get_remote_size w url = .error .couldNotGetRemoteSize) ∧
    (∀ h, w.headMeta url = some h → h.contentLength = none →
      get_remote_size w url = .ok 0) ∧
    (∀ mi fs resume, mi.get_download_url = url →
      get_remote_size w url = .ok 0 →
      download mi w fs resume =
        ⟨.error .couldNotDetermineRemoteSize, fs, [NetReq.head url], [], []⟩) := by
  refine ⟨?_, ?_, ?_, ?_⟩
  · intro h; simp [get_remote_size, h]
  · intro hr hs hc; simp [get_remote_size, hs, hc]
  · intro hr hs hc; simp [get_remote_size, hs, hc]
  · intro mi fs resume hurl h0
    subst hurl
    simp only [download]
    rw [h0]
    simp

def wC3 : World :=
  { headMeta := fun _ => some ⟨none, none⟩
    headProbe := fun _ => none
    get := fun _ _ => none
    startTime := 0
    chunkTime := fun _ => 0 }

/-- C3 witness: absent header resolves to 0 and `download` then fails before
any file I/O. -/
theorem C3_remote_size_witness :
    get_remote_size wC3 mi0.get_download_url = .ok 0 ∧
    download mi0 wC3 ⟨none, none⟩ true =
      ⟨.error .couldNotDetermineRemoteSize, ⟨none, none⟩,
        [NetReq.head mi0.get_download_url], [], []⟩ :=
  ⟨(C3_remote_size wC3 mi0.get_download_url).2.2.1 ⟨none, none⟩ rfl rfl,
   (C3_remote_size wC3 mi0.get_download_url).2.2.2 mi0 ⟨none, none⟩ true rfl
     ((C3_remote_size wC3 mi0.get_download_url).2.2.1 ⟨none, none⟩ rfl rfl)⟩

/-- C3 counterexample: a HEAD response whose length header is absent makes
`get_remote_size` return 0, not fail — refuting the claim that the resolve
operation itself errors whenever the header is absent. -/
theorem C3_counterexample :
    wC3.headMeta mi0.get_download_url = some ⟨none, none⟩ ∧
    get_remote_size wC3 mi0.get_download_url = .ok 0 :=
  ⟨rfl, rfl⟩

/-- C9: the percent computation divides only under the `total > 0` guard:
`downloaded/total × 100` when the total is positive, `0` when the total is
zero, so the division is never performed with a zero divisor. -/
theorem C9_percent_guard (downloaded : Nat) (total : Int) :
    (0 < total → report_percent downloaded total = (downloaded : ℚ) / (total : ℚ) * 100) ∧
    (total = 0 → report_percent downloaded total = 0) := by
  constructor
  · intro h; simp [report_percent, h]
  · intro h; subst h; simp [report_percent]

/-- C9 witness: 1 of 4 bytes is 25 percent; a zero total reports 0. -/
theorem C9_percent_guard_witness :
    report_percent 1 4 = 25 ∧ report_percent 5 0 = 0 := by
  constructor
  · rw [(C9_percent_guard 1 4).1 (by norm_num)]; norm_num
  · exact (C9_percent_guard 5 0).2 rfl

/-- C10: `list_available_models` returns a copy — overwriting the returned
reference with any new dictionary value leaves the class-level catalog, as
read by the catalog reference and by `get_model_info`, unchanged. -/
theorem C10_catalog_copy (h : DictHeap) (hinv : h.classRef < h.nextRef)
    (d : List (String × ModelInfo)) (key : String) :
    (writeDict (list_available_models h).2 (list_available_models h).1 d).store
        (writeDict (list_available_models h).2 (list_available_models h).1 d).classRef =
      h.store h.classRef ∧
    get_model_info (writeDict (list_available_models h).2 (list_available_models h).1 d) key =
      get_model_info h key := by
  have hne : h.classRef ≠ h.nextRef := Nat.ne_of_lt hinv
  constructor
  · simp [writeDict, list_available_models, hne]
  · simp [get_model_info, writeDict, list_available_models, hne]

def heap0 : DictHeap :=
  { store := fun i => if i = 0 then RECOMMENDED_MODELS else []
    classRef := 0
    nextRef := 1 }

/-- C10 witness: emptying the copied dict leaves the catalog intact. -/
theorem C10_catalog_copy_witness :
    (writeDict (list_available_models heap0).2 (list_available_models heap0).1 []).store
        (writeDict (list_available_models heap0).2 (list_available_models heap0).1 []).classRef =
      heap0.store heap0.classRef ∧
    get_model_info (writeDict (list_available_models heap0).2 (list_available_models heap0).1 [])
        ("floppa-12b-q4") =
      get_model_info heap0 ("floppa-12b-q4") :=
  C10_catalog_copy heap0 (by decide) [] ("floppa-12b-q4")

/-- C8: `calculate_checksum` is a deterministic function of the final file's
contents and the algorithm — two invocations over an unmodified final file
yield identical digests — and it fails when the final file does not exist. -/
theorem C8_checksum_deterministic (alg : HashAlg) (fs1 fs2 : FS)
    (hsame : fs1.final = fs2.final) :
    calculate_checksum alg fs1 = calculate_checksum alg fs2 ∧
    (fs1.final = none → calculate_checksum alg fs1 = .error ("File not downloaded")) := by
  constructor
  · unfold calculate_checksum; rw [hsame]
  · intro h; unfold calculate_checksum; rw [h]

def algAdd : HashAlg :=
  { State := Nat
    init := 0
    update := fun s c => s + c.sum + 1
    hexdigest := fun s => toString s }

/-- C8 witness: same final contents (different temp files) give the same
digest; a missing final file fails. -/
theorem C8_checksum_deterministic_witness :
    calculate_checksum algAdd ⟨some [1, 2, 3], some []⟩ =
      calculate_checksum algAdd ⟨some [1, 2, 3], none⟩ ∧
    calculate_checksum algAdd ⟨none, none⟩ = .error ("File not downloaded") :=
  ⟨(C8_checksum_deterministic algAdd ⟨some [1, 2, 3], some []⟩ ⟨some [1, 2, 3], none⟩ rfl).1,
   (C8_checksum_deterministic algAdd ⟨none, none⟩ ⟨none, none⟩ rfl).2 rfl⟩

/-- C4: when the stream ends with a byte count different from the resolved
remote size, `download` fails with the incomplete-transfer error, the rename
never happens — the final path holds exactly what it held before the call —
and the temporary file is left on disk holding the streamed bytes. -/
theorem C4_incomplete (mi : ModelInfo) (w : World) (fs : FS) (resume : Bool)
    (remote : Int) (resp : GetResp)
    (hmeta : get_remote_size w mi.get_download_url = .ok remote)
    (hnz : remote ≠ 0)
    (hv : verify_download fs (some remote) = false)
    (hget : w.get mi.get_download_url
        (if 0 < (resumeDecision w mi.get_download_url resume (fileSize fs.temp) fs.temp).1
         then some (resumeDecision w mi.get_download_url resume (fileSize fs.temp) fs.temp).1
         else none) = some resp)
    (hok : resp.statusOk = true)
    (hne : (((resumeDecision w mi.get_download_url resume (fileSize fs.temp) fs.temp).1
        + resp.chunks.flatten.length : Nat) : Int) ≠ remote) :
    (download mi w fs resume).res =
      .error (.incomplete
        ((resumeDecision w mi.get_download_url resume (fileSize fs.temp) fs.temp).1
          + resp.chunks.flatten.length) remote) ∧
    (download mi w fs resume).fs.final = fs.final ∧
    (download mi w fs resume).fs.temp =
      some ((if 0 < (resumeDecision w mi.get_download_url resume (fileSize fs.temp) fs.temp).1
             then (resumeDecision w mi.get_download_url resume (fileSize fs.temp) fs.temp).2.1.getD []
             else []) ++ resp.chunks.flatten) := by
  simp only [download]
  rw [hmeta]
  simp only [hnz, hv, if_false, Bool.false_eq_true]
  simp only [hget]
  rw [if_neg (show ¬resp.statusOk = false by simp [hok])]
  rw [streamLoop_downloaded]
  rw [if_neg hne]
  simp [streamLoop_written]

def wC4 : World :=
  { headMeta := fun _ => some ⟨some (some 10), none⟩
    headProbe := fun _ => none
    get := fun _ _ => some ⟨true, [[1, 2, 3]]⟩
    startTime := 0
    chunkTime := fun _ => 0 }

/-- C4 witness: 3 bytes arrive instead of the announced 10; the error is
raised, no final file appears, the temporary file keeps the 3 bytes. -/
theorem C4_incomplete_witness :
    (download mi0 wC4 ⟨none, none⟩ false).res = .error (.incomplete 3 10) ∧
    (download mi0 wC4 ⟨none, none⟩ false).fs.final = none ∧
    (download mi0 wC4 ⟨none, none⟩ false).fs.temp = some [1, 2, 3] :=
  C4_incomplete mi0 wC4 ⟨none, none⟩ false 10 ⟨true, [[1, 2, 3]]⟩
    rfl (by decide) rfl rfl rfl (by decide)

/-- C5: with a non-empty temporary file, when resume is not requested or the
server does not advertise byte-range support, the decision deletes the
temporary file and restarts at offset 0 (so the GET carries no Range
header); and, over all invocations, a ranged GET is only ever issued when
resume was requested, the range probe returned true, and the offset is the
size of the (non-empty) temporary file. -/
theorem C5_no_range_without_support :
    (∀ (w : World) (url : String) (resume : Bool) (c : Bytes),
      0 < c.length → (resume = false ∨ check_resume_support w url = false) →
      resumeDecision w url resume (fileSize (some c)) (some c) =
        (0, none, (if resume then [NetReq.head url] else []), [])) ∧
    (∀ (mi : ModelInfo) (w : World) (fs : FS) (resume : Bool) (k : Nat),
      NetReq.get mi.get_download_url (some k) ∈ (download mi w fs resume).requests →
      resume = true ∧ check_resume_support w mi.get_download_url = true ∧
        k = fileSize fs.temp ∧ 0 < k) := by
  constructor
  · intro w url resume c hc hor
    have hs : fileSize (some c) = c.length := rfl
    unfold resumeDecision
    rw [hs, if_pos hc]
    cases resume
    · simp
    · rcases hor with h | h
      · exact absurd h (by simp)
      · simp [h]
  · intro mi w fs resume k hmem
    rcases download_requests mi w fs resume with h | h
    · rw [h] at hmem; simp at hmem
    · rw [h] at hmem
      rcases resumeDecision_preqs w mi.get_download_url resume (fileSize fs.temp) fs.temp with
        hp | hp <;> rw [hp] at hmem <;> simp at hmem <;>
        obtain ⟨hd, hk⟩ := hmem <;>
        obtain ⟨hr, hsup, hd0, hpos, -⟩ :=
          resumeDecision_pos w mi.get_download_url resume (fileSize fs.temp) fs.temp hd <;>
        exact ⟨hr, hsup, by omega, by omega⟩

def wC5 : World :=
  { headMeta := fun _ => some ⟨some (some 5), none⟩
    headProbe := fun _ => some ⟨none, some ("bytes")⟩
    get := fun _ _ => some ⟨true, []⟩
    startTime := 0
    chunkTime := fun _ => 0 }

def wC5b : World :=
  { headMeta := fun _ => some ⟨some (some 5), none⟩
    headProbe := fun _ => some ⟨none, none⟩
    get := fun _ _ => some ⟨true, []⟩
    startTime := 0
    chunkTime := fun _ => 0 }

/-- C5 witness: a 2-byte temporary file against a server without range
support is discarded and the offset reset to 0; against a range-supporting
server the issued ranged GET instantiates the only-if direction. -/
theorem C5_no_range_without_support_witness :
    resumeDecision wC5b mi0.get_download_url true (fileSize (some [9, 9])) (some [9, 9]) =
      (0, none, [NetReq.head mi0.get_download_url], []) ∧
    (true = true ∧ check_resume_support wC5 mi0.get_download_url = true ∧
      2 = fileSize ((⟨none, some [9, 9]⟩ : FS).temp) ∧ 0 < 2) :=
  ⟨C5_no_range_without_support.1 wC5b mi0.get_download_url true [9, 9] (by decide)
      (Or.inr rfl),
   C5_no_range_without_support.2 mi0 wC5 ⟨none, some [9, 9]⟩ true 2 (by decide)⟩

theorem calls_getLast_aux {l : List (ℚ × Msg)} {a : ℚ × Msg} :
    (l ++ [a]).getLast? = some a := by
  simp [List.getLast?_concat]

/-- C6: every successful `download` invokes the callback at least twice;
the first invocation carries percent 0 (emitted before any byte transfers)
and the last carries percent 100, whatever the timing of the transfer. -/
theorem C6_boundary_calls (mi : ModelInfo) (w : World) (fs : FS) (resume : Bool)
    (hok : (download mi w fs resume).res = .ok ()) :
    (download mi w fs resume).calls.head? = some ((0 : ℚ), Msg.startingDownload) ∧
    (∃ m, (download mi w fs resume).calls.getLast? = some ((100 : ℚ), m)) ∧
    2 ≤ (download mi w fs resume).calls.length := by
  simp only [download] at hok ⊢
  rcases hge : get_remote_size w mi.get_download_url with e | remote
  · simp only [hge] at hok
    exact absurd hok (by simp)
  · simp only [hge] at hok
    simp only []
    by_cases h0 : remote = 0
    · rw [if_pos h0] at hok; exact absurd hok (by simp)
    · rw [if_neg h0] at hok ⊢
      by_cases hv : verify_download fs (some remote) = true
      · rw [if_pos hv]
        exact ⟨rfl, ⟨Msg.alreadyDownloaded, rfl⟩, by simp⟩
      · rw [if_neg hv] at hok ⊢
        rcases hg : w.get mi.get_download_url
            (if 0 < (resumeDecision w mi.get_download_url resume (fileSize fs.temp) fs.temp).1
             then some (resumeDecision w mi.get_download_url resume (fileSize fs.temp) fs.temp).1
             else none) with _ | resp
        · simp only [hg] at hok; exact absurd hok (by simp)
        · simp only [hg] at hok
          simp only []
          by_cases hsf : resp.statusOk = false
          · rw [if_pos hsf] at hok; exact absurd hok (by simp)
          · rw [if_neg hsf] at hok ⊢
            by_cases hcomp : ((streamLoop remote w.startTime w.chunkTime resp.chunks 0
                (resumeDecision w mi.get_download_url resume (fileSize fs.temp) fs.temp).1
                (resumeDecision w mi.get_download_url resume (fileSize fs.temp) fs.temp).1 0).1 : Int)
                = remote
            · rw [if_pos hcomp]
              refine ⟨rfl, ⟨Msg.downloadComplete, calls_getLast_aux⟩, ?_⟩
              simp only [List.length_append, List.length_cons, List.length_singleton]
              omega
            · rw [if_neg hcomp] at hok; exact absurd hok (by simp)

def wC6 : World :=
  { headMeta := fun _ => some ⟨some (some 3), none⟩
    headProbe := fun _ => some ⟨none, some ("bytes")⟩
    get := fun _ _ => some ⟨true, []⟩
    startTime := 0
    chunkTime := fun _ => 0 }

/-- C6 witness: a resumed transfer that completes with no further bytes
still receives both boundary callbacks. -/
theorem C6_boundary_calls_witness :
    (download mi0 wC6 ⟨none, some [7, 7, 7]⟩ true).calls.head? =
      some ((0 : ℚ), Msg.startingDownload) ∧
    (∃ m, (download mi0 wC6 ⟨none, some [7, 7, 7]⟩ true).calls.getLast? =
      some ((100 : ℚ), m)) ∧
    2 ≤ (download mi0 wC6 ⟨none, some [7, 7, 7]⟩ true).calls.length :=
  C6_boundary_calls mi0 wC6 ⟨none, some [7, 7, 7]⟩ true rfl

/-- C7: in a resumed session (non-empty temporary file, resume requested,
range probe succeeded) the `downloaded` counter starts at the temporary
file's size at the moment resume is initiated and never decreases during
the session. -/
theorem C7_resume_counter (mi : ModelInfo) (w : World) (fs : FS) (resume : Bool)
    (remote : Int) (c : Bytes)
    (hmeta : get_remote_size w mi.get_download_url = .ok remote)
    (hnz : remote ≠ 0)
    (hv : verify_download fs (some remote) = false)
    (hc : fs.temp = some c) (hlen : 0 < c.length)
    (hr : resume = true)
    (hsup : check_resume_support w mi.get_download_url = true) :
    (download mi w fs resume).trace.head? = some c.length ∧
    List.Chain' (· ≤ ·) (download mi w fs resume).trace := by
  subst hr
  have hd0 : fileSize fs.temp = c.length := by rw [hc]; rfl
  have hdec : resumeDecision w mi.get_download_url true (fileSize fs.temp) fs.temp =
      (c.length, fs.temp, [NetReq.head mi.get_download_url],
        [((0 : ℚ), Msg.resumingFrom c.length)]) := by
    unfold resumeDecision
    rw [hd0, if_pos hlen, hsup]
    simp
  simp only [download]
  rw [hmeta]
  simp only []
  rw [if_neg hnz, if_neg (by simp [hv]), hdec]
  simp only [hd0]
  rcases hg : w.get mi.get_download_url (if 0 < c.length then some c.length else none) with
    _ | resp
  · simp
  · simp only []
    by_cases hsf : resp.statusOk = false
    · rw [if_pos hsf]
      simp
    · rw [if_neg hsf]
      by_cases hcomp : ((streamLoop remote w.startTime w.chunkTime resp.chunks 0
          c.length c.length 0).1 : Int) = remote
      · rw [if_pos hcomp]
        constructor
        · simp
        · simp only [List.cons_append, List.nil_append, List.singleton_append]
          exact streamLoop_trace_chain remote w.startTime w.chunkTime resp.chunks 0
            c.length c.length 0
      · rw [if_neg hcomp]
        constructor
        · simp
        · simp only [List.cons_append, List.nil_append, List.singleton_append]
          exact streamLoop_trace_chain remote w.startTime w.chunkTime resp.chunks 0
            c.length c.length 0

def wC7 : World :=
  { headMeta := fun _ => some ⟨some (some 3), none⟩
    headProbe := fun _ => some ⟨none, some ("bytes")⟩
    get := fun _ _ => some ⟨true, []⟩
    startTime := 0
    chunkTime := fun _ => 0 }

/-- C7 witness: resuming with a 3-byte temporary file starts the counter at
3 and it never decreases. -/
theorem C7_resume_counter_witness :
    (download mi0 wC7 ⟨none, some [7, 7, 7]⟩ true).trace.head? = some 3 ∧
    List.Chain' (· ≤ ·) (download mi0 wC7 ⟨none, some [7, 7, 7]⟩ true).trace :=
  C7_resume_counter mi0 wC7 ⟨none, some [7, 7, 7]⟩ true 3 [7, 7, 7]
    rfl (by decide) rfl rfl (by decide) rfl rfl

/-- C2 (amended): every emission of the active-transfer loop reports as
speed the cumulative session average — the bytes downloaded since the
session started (the subtrahend `_last_downloaded_bytes` is never updated
during the loop) divided by the time elapsed since the session started, in
bytes per second — not a rolling 1-second window; the speed is 0 when no
time has elapsed. -/
theorem C2_speed_cumulative (remote : Int) (st : ℚ) (ct : Nat → ℚ)
    (chunks : List Bytes) (idx downloaded lastBytes : Nat) (lastT : ℚ)
    (pm : ℚ × Msg)
    (hmem : pm ∈ (streamLoop remote st ct chunks idx downloaded lastBytes lastT).2.2.1)
    (dl : Nat) (tot : Int) (sp : ℚ) (hpm : pm.2 = .progress dl tot sp) :
    ∃ i, (ct i - st ≤ 0 ∧ sp = 0) ∨
      (0 < ct i - st ∧ sp = ((dl : ℚ) - (lastBytes : ℚ)) / (ct i - st)) := by
  revert hmem
  induction chunks generalizing idx downloaded lastT with
  | nil => intro hmem; simp [streamLoop] at hmem
  | cons chunk rest ih =>
    intro hmem
    simp only [streamLoop] at hmem
    by_cases hemp : chunk.isEmpty = true
    · rw [if_pos hemp] at hmem
      exact ih idx downloaded lastT hmem
    · rw [if_neg hemp] at hmem
      by_cases hti : (1 : ℚ) ≤ ct idx - lastT
      · rw [if_pos hti] at hmem
        simp only [List.mem_cons] at hmem
        rcases hmem with heq | hmem
        · refine ⟨idx, ?_⟩
          have hsp : sp = if 0 < ct idx - st then
              ((downloaded + chunk.length : ℕ) - (lastBytes : ℚ)) / (ct idx - st) else 0 := by
            have := congrArg Prod.snd heq
            simp only [report_progress] at this
            rw [this] at hpm
            exact (Msg.progress.injEq _ _ _ _ _ _).mp hpm.symm |>.2.2
          have hdl : dl = downloaded + chunk.length := by
            have := congrArg Prod.snd heq
            simp only [report_progress] at this
            rw [this] at hpm
            exact (Msg.progress.injEq _ _ _ _ _ _).mp hpm.symm |>.1
          by_cases hel : 0 < ct idx - st
          · right
            refine ⟨hel, ?_⟩
            rw [hsp, if_pos hel, hdl]
          · left
            exact ⟨le_of_not_lt hel, by rw [hsp, if_neg hel]⟩
        · exact ih (idx + 1) (downloaded + chunk.length) (ct idx) hmem
      · rw [if_neg hti] at hmem
        exact ih (idx + 1) (downloaded + chunk.length) lastT hmem

def ctC2 : Nat → ℚ := fun i => if i = 0 then 101 else 205 / 2

/-- C2 witness: the first loop emission of a transfer started at time 100
with 100 bytes arriving at time 101 reports speed (100 − 0)/(101 − 100). -/
theorem C2_speed_cumulative_witness :
    ((50 : ℚ), Msg.progress 100 200 100) ∈
      (streamLoop 200 100 ctC2 [List.replicate 100 7, List.replicate 100 7] 0 0 0 0).2.2.1 ∧
    (∃ i, (ctC2 i - 100 ≤ 0 ∧ (100 : ℚ) = 0) ∨
      (0 < ctC2 i - 100 ∧ (100 : ℚ) = ((100 : ℚ) - ((0 : ℕ) : ℚ)) / (ctC2 i - 100))) :=
  ⟨by norm_num [streamLoop, ctC2, report_progress, report_percent],
   C2_speed_cumulative 200 100 ctC2 [List.replicate 100 7, List.replicate 100 7] 0 0 0 0
     ((50 : ℚ), Msg.progress 100 200 100)
     (by norm_num [streamLoop, ctC2, report_progress, report_percent]) 100 200 100 rfl⟩

def wC2 : World :=
  { headMeta := fun _ => some ⟨some (some 200), none⟩
    headProbe := fun _ => some ⟨none, none⟩
    get := fun _ _ => some ⟨true, [List.replicate 100 7, List.replicate 100 7]⟩
    startTime := 100
    chunkTime := fun i => if i = 0 then 101 else 205 / 2 }

/-- C2 counterexample: a transfer starts at time 100, gets 100 bytes at
time 101 and 100 more at time 102.5.  The second loop emission reports
speed 80 (cumulative: 200 bytes / 2.5 s), whereas
bytes-since-last-sample / time-since-last-sample is 100 / 1.5 — and its
MiB/s form 100 / 1.5 / 1048576 — so the reported value is neither. -/
theorem C2_counterexample :
    ((download mi0 wC2 ⟨none, none⟩ true).calls.map Prod.snd) =
      [Msg.startingDownload, Msg.progress 100 200 100, Msg.progress 200 200 80,
       Msg.progress 200 200 0, Msg.downloadComplete] ∧
    (80 : ℚ) ≠ ((200 : ℚ) - 100) / ((205 / 2 : ℚ) - 101) ∧
    (80 : ℚ) ≠ ((200 : ℚ) - 100) / ((205 / 2 : ℚ) - 101) / 1048576 := by
  refine ⟨?_, by norm_num, by norm_num⟩
  norm_num [download, get_remote_size, verify_download, fileSize, resumeDecision,
    check_resume_support, streamLoop, report_progress, report_percent, mi0, wC2]
